import Mathlib

set_option maxRecDepth 8000

/-!
Shallow embedding of the URL image codec repository (src/imageViewer.js and
src/imageProcessor.js): the `BitStreamEncoder` base-N codec with 4-byte
big-endian length framing, and the size-constrained compression search
built on top of it.

Modelling conventions.  JavaScript `BigInt` values are `Nat`; JS strings
are `List Char`; `Uint8Array` contents are `List Nat` (one entry per byte);
thrown exceptions are `Except` errors with one constructor per `throw`
site; the external canvas renderer (`tryCompression`) is an abstract
oracle function, as the spec directs; JS floating-point numbers in the
search (qualities and scales, which only ever undergo additions, halvings,
`min` and comparisons of small dyadic values) are `Rat`; the `Infinity`
sentinel for encoded lengths is `none : Option Nat`.  Source `while` loops
whose bound is not syntactically evident are modelled with an explicit
fuel argument consuming one unit per iteration, `none` meaning the loop
did not exit within `fuel` iterations, so `∀ fuel, loop fuel = none`
states nontermination of the source loop.
-/

/-! ## The codec: BitStreamEncoder (imageViewer.js, bitstream.js part) -/

/-- Errors thrown by the `BitStreamEncoder` constructor: a missing, empty
or non-string alphabet; or an alphabet with duplicate characters (the
`new Set(safeChars).size !== safeChars.length` check). -/
inductive ConstructError where
  | emptyAlphabet
  | duplicateCharacters
deriving DecidableEq

/-- Per-instance state of `BitStreamEncoder`: the validated safe character
set.  `RADIX`, `charToIndex` and `indexToChar` are derived views of it
(the lookup `Map`s the constructor builds are index/character lookups into
`SAFE_CHARS`, modelled as functions). -/
structure BitStreamEncoder where
  SAFE_CHARS : List Char
deriving DecidableEq

/-- The `charToIndex` map: a character's index in the alphabet. -/
def BitStreamEncoder.charToIndex (e : BitStreamEncoder) (c : Char) : ℕ :=
  e.SAFE_CHARS.indexOf c

/-- The `indexToChar` map: the alphabet character at an index, `none` when
the index is outside the alphabet (a `Map.get` miss). -/
def BitStreamEncoder.indexToChar (e : BitStreamEncoder) (i : ℕ) : Option Char :=
  e.SAFE_CHARS.get? i

/-- `new BitStreamEncoder(safeChars)`: rejects an empty alphabet, then an
alphabet whose distinct-character count (`new Set(safeChars).size`,
modelled via `dedup`) differs from its length. -/
def mkBitStreamEncoder (safeChars : List Char) : Except ConstructError BitStreamEncoder :=
  if safeChars.length = 0 then .error .emptyAlphabet
  else if safeChars.dedup.length ≠ safeChars.length then .error .duplicateCharacters
  else .ok ⟨safeChars⟩

/-- The `while (value > 0n)` digit-emission loop of `encodeBits`:
`chunks.unshift(SAFE_CHARS[Number(value % RADIX)]); value = value / RADIX`.
Fuel-explicit; fuel `v` always suffices because `v` strictly decreases. -/
def encodeDigitLoop (A : List Char) : ℕ → ℕ → List Char → List Char
  | 0, _, chunks => chunks
  | fuel + 1, v, chunks =>
    if v = 0 then chunks
    else encodeDigitLoop A fuel (v / A.length) (A.getD (v % A.length) ' ' :: chunks)

/-- `encodeBits(data)`: prepend the 4-byte big-endian length header
(`setUint32(0, bytes.length, false)`), fold the framed bytes into one big
integer (`value = (value << 8n) | BigInt(byte)`), and emit its base-R
digits most significant first; a zero value emits the single digit
`SAFE_CHARS[0]`. -/
def encodeBits (A : List Char) (bytes : List ℕ) : List Char :=
  let len := bytes.length
  let lengthHeader := [len / 2 ^ 24 % 256, len / 2 ^ 16 % 256, len / 2 ^ 8 % 256, len % 256]
  let allBytes := lengthHeader ++ bytes
  let value := allBytes.foldl (fun v b => v * 256 + b) 0
  if value = 0 then [A.getD 0 ' ']
  else encodeDigitLoop A value value []

/-- Errors thrown by `decodeBits`, one constructor per `throw` site in
source order: non-string/empty input; characters outside the alphabet;
a length header equal to 0; fewer payload bytes than the header declares. -/
inductive DecodeError where
  | emptyInput
  | invalidCharacters
  | zeroLengthHeader
  | incompleteData
deriving DecidableEq

/-- The spec's error taxonomy files both pre-validation throws of
`decodeBits` under `InvalidSymbol` (unknown character, or empty input). -/
def DecodeError.isInvalidSymbol : DecodeError → Bool
  | .emptyInput => true
  | .invalidCharacters => true
  | .zeroLengthHeader => false
  | .incompleteData => false

/-- Big-endian 32-bit read (`DataView.getUint32(0, false)`) of a 4-byte
list. -/
def readUint32BE (bytes : List ℕ) : ℕ :=
  bytes.foldl (fun v b => v * 256 + b) 0

/-- The `while (value > 0n)` byte-extraction loop of `decodeBits`:
`bytes.unshift(Number(value & 0xFFn)); value = value >> 8n`.  Fuel-explicit;
fuel `v` always suffices because `v` strictly decreases. -/
def decodeByteLoop : ℕ → ℕ → List ℕ → List ℕ
  | 0, _, bytes => bytes
  | fuel + 1, v, bytes =>
    if v = 0 then bytes
    else decodeByteLoop fuel (v / 256) (v % 256 :: bytes)

/-- `decodeBits(str)`: validate the input non-empty and over the alphabet,
rebuild the big integer by Horner's rule
(`value = value * RADIX + charToIndex.get(char)`), extract its bytes least
significant first (a zero value yields the single byte 0), left-pad with
zero bytes while fewer than 4 are present, read the first 4 bytes as the
declared big-endian length (rejecting 0, the JS `expectedLength <= 0`
check, since `getUint32` is never negative), and return exactly that many
of the remaining bytes, rejecting a shortfall. -/
def decodeBits (A : List Char) (s : List Char) : Except DecodeError (List ℕ) :=
  if s.length = 0 then .error .emptyInput
  else if (s.filter fun c => ! A.contains c).length > 0 then .error .invalidCharacters
  else
    let value := s.foldl (fun v c => v * A.length + A.indexOf c) 0
    let bytes := if value = 0 then [0] else decodeByteLoop value value []
    let padded := List.replicate (4 - bytes.length) 0 ++ bytes
    let expectedLength := readUint32BE (padded.take 4)
    if expectedLength = 0 then .error .zeroLengthHeader
    else
      let dataBytes := padded.drop 4
      if dataBytes.length < expectedLength then .error .incompleteData
      else .ok (dataBytes.take expectedLength)

/-- The decode pipeline exactly as claim C4 words it: Horner reconstruction
of the integer `V`, `V`'s minimal big-endian byte representation
(`Nat.digits 256` reversed), left-padding with zero bytes only until at
least 4 bytes are present, then the three outcomes of the length-header
check.  Stated independently of `decodeBits`'s loop realisation so the
refinement theorem compares the two. -/
def decodePayload (A : List Char) (s : List Char) : Except DecodeError (List ℕ) :=
  let V := s.foldl (fun v c => v * A.length + A.indexOf c) 0
  let minimal := (Nat.digits 256 V).reverse
  let padded := List.replicate (4 - minimal.length) 0 ++ minimal
  let L := readUint32BE (padded.take 4)
  if L = 0 then .error .zeroLengthHeader
  else if (padded.drop 4).length < L then .error .incompleteData
  else .ok ((padded.drop 4).take L)

/-- The 16-symbol lowercase hexadecimal alphabet used by the concrete
scenarios. -/
def hexAlphabet : List Char :=
  ['0', '1', '2', '3', '4', '5', '6', '7'] ++ ['8', '9', 'a', 'b', 'c', 'd', 'e', 'f']

/-- `decodeBits` never hands back an empty payload: phrased over the
result so the statement carries no hypothesis. -/
def succeedsWithPayload (r : Except DecodeError (List ℕ)) : Prop :=
  ∀ bs, r = .ok bs → 1 ≤ bs.length

/-! ### Codec lemmas -/

/-- The byte-extraction loop, given enough fuel, computes the reversed
base-256 digit expansion (the minimal big-endian byte string). -/
theorem decodeByteLoop_eq_digits :
    ∀ (fuel v : ℕ) (acc : List ℕ), v ≤ fuel →
      decodeByteLoop fuel v acc = (Nat.digits 256 v).reverse ++ acc := by
  intro fuel
  induction fuel with
  | zero =>
    intro v acc hv
    interval_cases v
    simp [decodeByteLoop]
  | succ f ih =>
    intro v acc hv
    by_cases h0 : v = 0
    · subst h0; simp [decodeByteLoop]
    · have hlt : v / 256 < v := Nat.div_lt_self (Nat.pos_of_ne_zero h0) (by norm_num)
      have hle : v / 256 ≤ f := by omega
      rw [decodeByteLoop, if_neg h0, ih _ _ hle,
        Nat.digits_def' (by norm_num : 1 < 256) (Nat.pos_of_ne_zero h0)]
      simp

theorem c9_helper_take_length {L : ℕ} (l : List ℕ) (hL : L ≠ 0) (hlen : ¬ l.length < L) :
    1 ≤ (l.take L).length := by
  simp only [List.length_take]
  omega

/-- Decidable equality of `Except` results, for evaluating the codec on
concrete inputs. -/
instance exceptDecEq {ε α : Type} [DecidableEq ε] [DecidableEq α] :
    DecidableEq (Except ε α) := fun x y =>
  match x, y with
  | .error a, .error b =>
    if h : a = b then .isTrue (h ▸ rfl) else .isFalse fun hh => h (Except.error.inj hh)
  | .error _, .ok _ => .isFalse fun hh => Except.noConfusion hh
  | .ok _, .error _ => .isFalse fun hh => Except.noConfusion hh
  | .ok a, .ok b =>
    if h : a = b then .isTrue (h ▸ rfl) else .isFalse fun hh => h (Except.ok.inj hh)

/-! ### Codec theorems -/

/-- C1.  The round-trip claim fails on the code at the spec's own concrete
scenario: with the 16-symbol hex alphabet and payload `[0x00, 0x01, 0xFF]`,
decoding the encoding does not return the payload — the decoder only
left-pads the minimal byte string back to 4 bytes, so the three leading
zero bytes the frame `[0,0,0,3,0,1,255]` loses under big-integer
conversion are never restored, the length header is misread as
`0x030001FF`, and decode throws the incomplete-data error. -/
theorem c1_roundtrip_fails_at_concrete_payload :
    decodeBits hexAlphabet (encodeBits hexAlphabet [0x00, 0x01, 0xFF])
      = .error .incompleteData := by
  decide

/-- C4, counterexample.  The claim quantifies over every string over the
alphabet; on the empty string the pipeline it describes would fail with
the zero-length-header error (`V = 0`), but `decodeBits` rejects the empty
string up front with its empty-input throw, a different error. -/
theorem c4_counterexample_empty_string :
    decodeBits hexAlphabet [] = .error .emptyInput
    ∧ decodePayload hexAlphabet [] = .error .zeroLengthHeader
    ∧ decodeBits hexAlphabet [] ≠ decodePayload hexAlphabet [] := by
  have h2 : decodePayload hexAlphabet [] = .error .zeroLengthHeader := by
    simp only [decodePayload, List.foldl_nil, Nat.digits_zero, List.reverse_nil]
    decide
  refine ⟨rfl, h2, ?_⟩
  rw [h2]
  decide

/-- C4, amended: for every **non-empty** string over the alphabet,
`decodeBits` behaves exactly as the claim describes — Horner
reconstruction of `V`, minimal big-endian bytes, left-padding to at least
4 bytes, then the zero-header error, the truncated-payload error, or the
first `L` payload bytes with trailing bytes discarded. -/
theorem c4_decode_follows_pipeline (A s : List Char) (hne : s ≠ [])
    (hval : ∀ c ∈ s, c ∈ A) :
    decodeBits A s = decodePayload A s := by
  have hlen : ¬ s.length = 0 := by simpa using hne
  have hfil : (s.filter fun c => ! A.contains c) = [] := by
    rw [List.filter_eq_nil_iff]
    simpa using hval
  have hgt : ¬ (s.filter fun c => ! A.contains c).length > 0 := by
    rw [hfil]
    decide
  simp only [decodeBits, decodePayload, if_neg hlen, if_neg hgt]
  generalize (s.foldl (fun v c => v * A.length + A.indexOf c) 0) = V
  by_cases hV : V = 0
  · subst hV
    simp only [Nat.digits_zero, List.reverse_nil]
    decide
  · rw [if_neg hV, decodeByteLoop_eq_digits V V [] le_rfl]
    simp

/-- C4, witness: the amended pipeline theorem applied to the concrete
encoding of `[0x00, 0x01, 0xFF]` over the hex alphabet. -/
theorem c4_decode_follows_pipeline_witness :
    ((['3', '0', '0', '0', '1', 'f', 'f'] : List Char) ≠ []
      ∧ ∀ c ∈ (['3', '0', '0', '0', '1', 'f', 'f'] : List Char), c ∈ hexAlphabet)
    ∧ decodeBits hexAlphabet ['3', '0', '0', '0', '1', 'f', 'f']
        = decodePayload hexAlphabet ['3', '0', '0', '0', '1', 'f', 'f'] :=
  ⟨⟨by decide, by decide⟩,
    c4_decode_follows_pipeline hexAlphabet ['3', '0', '0', '0', '1', 'f', 'f']
      (by decide) (by decide)⟩

/-- C6.  Decoding an empty string, or any string containing a character
outside the alphabet, fails with an error of the spec's `InvalidSymbol`
class — the two validation throws that precede any integer reconstruction
— and in particular never returns a byte sequence. -/
theorem c6_invalid_symbol_rejection (A s : List Char)
    (h : s = [] ∨ ∃ c ∈ s, c ∉ A) :
    ∃ e, decodeBits A s = .error e ∧ e.isInvalidSymbol = true := by
  rcases h with h | ⟨c, hc, hcc⟩
  · subst h
    exact ⟨.emptyInput, rfl, rfl⟩
  · refine ⟨.invalidCharacters, ?_, rfl⟩
    have hne : ¬ s.length = 0 := by
      simpa using List.ne_nil_of_mem hc
    have hmem : c ∈ s.filter fun c => ! A.contains c :=
      List.mem_filter.mpr ⟨hc, by simp [hcc]⟩
    have hpos : 0 < (s.filter fun c => ! A.contains c).length :=
      List.length_pos.mpr (List.ne_nil_of_mem hmem)
    rw [decodeBits, if_neg hne, if_pos hpos]

/-- C6, witness: a string with a character outside the hex alphabet. -/
theorem c6_invalid_symbol_rejection_witness :
    ((['x'] : List Char) = [] ∨ ∃ c ∈ (['x'] : List Char), c ∉ hexAlphabet)
    ∧ ∃ e, decodeBits hexAlphabet ['x'] = .error e ∧ e.isInvalidSymbol = true :=
  ⟨Or.inr ⟨'x', by decide, by decide⟩,
    c6_invalid_symbol_rejection hexAlphabet ['x'] (Or.inr ⟨'x', by decide, by decide⟩)⟩

/-- C7.  Construction fails on the empty alphabet and on every alphabet
with a repeated symbol, and succeeds on every non-empty duplicate-free
alphabet, with `charToIndex` and `indexToChar` mutually inverse (a
symbol-to-index / index-to-symbol bijection). -/
theorem c7_constructor_contract (A : List Char) :
    (A = [] → mkBitStreamEncoder A = .error .emptyAlphabet)
    ∧ (¬ A.Nodup → mkBitStreamEncoder A = .error .duplicateCharacters)
    ∧ (A ≠ [] → A.Nodup →
        mkBitStreamEncoder A = .ok ⟨A⟩
        ∧ (∀ c ∈ A,
            (BitStreamEncoder.mk A).indexToChar ((BitStreamEncoder.mk A).charToIndex c) = some c)
        ∧ (∀ i < A.length, ∃ c,
            (BitStreamEncoder.mk A).indexToChar i = some c
            ∧ (BitStreamEncoder.mk A).charToIndex c = i)) := by
  refine ⟨?_, ?_, ?_⟩
  · rintro rfl
    rfl
  · intro hnd
    have hne : ¬ A.length = 0 := by
      intro h
      rw [List.length_eq_zero.mp h] at hnd
      exact hnd List.nodup_nil
    have hdup : A.dedup.length ≠ A.length := fun h =>
      hnd (((A.dedup_sublist).eq_of_length h) ▸ A.nodup_dedup)
    rw [mkBitStreamEncoder, if_neg hne, if_pos hdup]
  · intro hne hnd
    refine ⟨?_, ?_, ?_⟩
    · have hlen : ¬ A.length = 0 := by simpa using hne
      have heq : ¬ A.dedup.length ≠ A.length := by
        simp [List.dedup_eq_self.mpr hnd]
      rw [mkBitStreamEncoder, if_neg hlen, if_neg heq]
    · intro c hc
      have hlt : A.indexOf c < A.length := List.indexOf_lt_length.mpr hc
      show A.get? (A.indexOf c) = some c
      rw [List.get?_eq_get hlt, List.indexOf_get hlt]
    · intro i hi
      refine ⟨A.get ⟨i, hi⟩, List.get?_eq_get hi, ?_⟩
      simpa [BitStreamEncoder.charToIndex] using List.get_indexOf hnd ⟨i, hi⟩

/-- C7, witness: the contract at the concrete alphabet of the two
characters a and b. -/
theorem c7_constructor_contract_witness :
    ((['a', 'b'] : List Char) ≠ [] ∧ (['a', 'b'] : List Char).Nodup)
    ∧ mkBitStreamEncoder ['a', 'b'] = .ok ⟨['a', 'b']⟩ :=
  ⟨⟨by decide, by decide⟩,
    ((c7_constructor_contract ['a', 'b']).2.2 (by decide) (by decide)).1⟩

/-- C9.  Every successful `decodeBits` call returns at least one byte: the
zero length header is rejected, so although `encodeBits` accepts the empty
byte sequence, no decode ever returns an empty payload. -/
theorem c9_success_payload_nonempty (A s : List Char) :
    succeedsWithPayload (decodeBits A s) := by
  intro bs hbs
  simp only [decodeBits] at hbs
  split at hbs
  · exact absurd hbs (by simp)
  · split at hbs
    · exact absurd hbs (by simp)
    · split at hbs
      · rw [if_pos (by decide :
          readUint32BE (List.take 4 (List.replicate (4 - ([0] : List ℕ).length) 0 ++ [0]))
            = 0)] at hbs
        exact absurd hbs (by simp)
      · split at hbs
        · exact absurd hbs (by simp)
        · split at hbs
          · exact absurd hbs (by simp)
          · rename_i hL hlen
            injection hbs with h
            subst h
            exact c9_helper_take_length _ hL hlen

/-! ## The search: ImageProcessor (imageProcessor.js) -/

/-- MIME format identifiers, treated as opaque tokens (spec §6); the two
formats `detectOptimalFormat` filters away are distinguished
constructors. -/
inductive ImageFormat where
  | png
  | jpeg
  | webp
  | gif
  | svg
deriving DecidableEq

/-- A `createImageBitmap` result: only the pixel dimensions matter to the
search. -/
structure ImageBitmap where
  width : ℕ
  height : ℕ
deriving DecidableEq

/-- The parameter object handed to `tryCompressionLevel`. -/
structure TrialParams where
  format : ImageFormat
  quality : ℚ
  scale : ℚ
deriving DecidableEq

/-- The parameter object handed to `tryCompression` (the render oracle):
the scale already resolved to rounded pixel dimensions. -/
structure RenderParams where
  format : ImageFormat
  quality : ℚ
  width : ℤ
  height : ℤ
deriving DecidableEq

/-- `Math.round` on the nonnegative values that arise here: half rounds
up. -/
def jsRound (x : ℚ) : ℤ := ⌊x + 1 / 2⌋

/-- The external renderer `tryCompression` (canvas drawing plus
`canvas.toBlob`) as an abstract deterministic oracle, as spec §6 and §9
direct: it yields the rendered blob's bytes and its reported size, or
fails (`none`) for a rejected parameter combination. -/
abbrev RenderOracle : Type := RenderParams → Option (List ℕ × ℕ)

/-- The record `tryCompressionLevel` builds on success (`result.data`). -/
structure CompressedData where
  encoded : List Char
  format : ImageFormat
  size : ℕ
deriving DecidableEq

/-- The full result record of `tryCompressionLevel`; `encodedLength` is
`none` for the `Infinity` sentinel of the failure path. -/
structure TrialResult where
  success : Bool
  encodedLength : Option ℕ
  data : Option CompressedData
  params : TrialParams
deriving DecidableEq

/-- JS `<` on encoded lengths where `none` plays `Infinity`:
`Infinity < x` is false, `n < Infinity` is true. -/
def infLt : Option ℕ → Option ℕ → Bool
  | none, _ => false
  | some _, none => true
  | some a, some b => a < b

/-- `tryCompressionLevel(img, params)`: render at
`Math.round(img.width * params.scale)` by
`Math.round(img.height * params.scale)`, encode the returned buffer with
the bit-stream encoder, and compare the encoded length against the URL
budget; a render the oracle rejects is caught and becomes an unsuccessful
result with `Infinity` encoded length (never a propagated error). -/
def tryCompressionLevel (A : List Char) (maxUrl : ℕ) (O : RenderOracle)
    (img : ImageBitmap) (params : TrialParams) : TrialResult :=
  match O ⟨params.format, params.quality,
      jsRound (img.width * params.scale), jsRound (img.height * params.scale)⟩ with
  | none => ⟨false, none, none, params⟩
  | some (buffer, size) =>
    let encoded := encodeBits A buffer
    if encoded.length ≤ maxUrl then
      ⟨true, some encoded.length, some ⟨encoded, params.format, size⟩, params⟩
    else
      ⟨false, some encoded.length, none, params⟩

/-- The mutable locals of `binarySearchCompression`'s loop. -/
structure BSState where
  minQuality : ℚ
  maxQuality : ℚ
  minScale : ℚ
  maxScale : ℚ
  bestResult : Option TrialResult
  iterations : ℕ

/-- The `while (iterations < maxIterations)` loop of
`binarySearchCompression`: evaluate the joint midpoint, move the lower
bounds up to it on success (recording the result) or the upper bounds
down to it on failure, break early once both ranges are narrower than
0.05, and count an iteration otherwise.  Fuel-explicit; any fuel ≥ 9
makes the `iterations < 8` guard, not the fuel, the reason the loop
stops. -/
def bsLoop (A : List Char) (maxUrl : ℕ) (O : RenderOracle) (img : ImageBitmap)
    (format : ImageFormat) : ℕ → BSState → BSState
  | 0, st => st
  | fuel + 1, st =>
    if st.iterations < 8 then
      let quality := (st.minQuality + st.maxQuality) / 2
      let scale := (st.minScale + st.maxScale) / 2
      let result := tryCompressionLevel A maxUrl O img ⟨format, quality, scale⟩
      let st' :=
        if result.success then
          { st with bestResult := some result, minQuality := quality, minScale := scale }
        else
          { st with maxQuality := quality, maxScale := scale }
      if |st'.maxQuality - st'.minQuality| < 1 / 20 ∧ |st'.maxScale - st'.minScale| < 1 / 20 then
        st'
      else
        bsLoop A maxUrl O img format fuel { st' with iterations := st'.iterations + 1 }
    else st

/-- The JS oversize-ratio test `initialLength / (maxUrl * 0.95) > k`,
stated multiplicatively.  This agrees with the IEEE semantics at every
input: for a positive divisor the two forms are equivalent; a `none`
(`Infinity`) length gives `Infinity > k`, true; a zero divisor gives
`n / 0 = Infinity > k` for `n > 0` (and `NaN > k`, false, for `n = 0`),
matching `(n : ℚ) > k * 0`. -/
def oversizeGT (initialLength : Option ℕ) (bound : ℚ) : Prop :=
  match initialLength with
  | none => True
  | some n => (n : ℚ) > bound

instance (l : Option ℕ) (b : ℚ) : Decidable (oversizeGT l b) :=
  match l with
  | none => .isTrue trivial
  | some n => inferInstanceAs (Decidable ((n : ℚ) > b))

/-- `binarySearchCompression(img, format, initialLength)`: initial bounds
quality ∈ [0.1, 0.95], scale ∈ [0.1, 1.0], with both upper bounds cut to
0.7 when the oversize ratio exceeds 4, or to 0.8 when it exceeds 2; then
the 8-round loop.  Returns `bestResult || { success: false }`, modelled
as `Option TrialResult` with `none` for the success-false record. -/
def binarySearchCompression (A : List Char) (maxUrl : ℕ) (O : RenderOracle)
    (img : ImageBitmap) (format : ImageFormat) (initialLength : Option ℕ) :
    Option TrialResult :=
  let targetSize : ℚ := (maxUrl : ℚ) * (19 / 20)
  let maxQuality : ℚ :=
    if oversizeGT initialLength (4 * targetSize) then 7 / 10
    else if oversizeGT initialLength (2 * targetSize) then 8 / 10
    else 19 / 20
  let maxScale : ℚ :=
    if oversizeGT initialLength (4 * targetSize) then 7 / 10
    else if oversizeGT initialLength (2 * targetSize) then 8 / 10
    else 1
  (bsLoop A maxUrl O img format 9
    ⟨1 / 10, maxQuality, 1 / 10, maxScale, none, 0⟩).bestResult

/-- One step-size stage of `optimizeCompression`: the `while (improved)`
loop.  Each iteration tries a capped quality-only increase and a capped
scale-only increase from the working point; if either succeeds it adopts
whichever has the smaller encoded length (when that one succeeded),
updates `bestResult` and `workingParams`, and repeats.  Fuel-explicit:
`none` means the loop was still improving after `fuel` iterations. -/
def optStepLoop (A : List Char) (maxUrl : ℕ) (O : RenderOracle) (img : ImageBitmap)
    (step : ℚ × ℚ) : ℕ → TrialParams → TrialResult → Option (TrialParams × TrialResult)
  | 0, _, _ => none
  | fuel + 1, workingParams, bestResult =>
    let qualityResult := tryCompressionLevel A maxUrl O img
      { workingParams with quality := min (19 / 20) (workingParams.quality + step.1) }
    let scaleResult := tryCompressionLevel A maxUrl O img
      { workingParams with scale := min 1 (workingParams.scale + step.2) }
    if qualityResult.success || scaleResult.success then
      let better :=
        if infLt qualityResult.encodedLength scaleResult.encodedLength then qualityResult
        else scaleResult
      if better.success then
        optStepLoop A maxUrl O img step fuel better.params better
      else some (workingParams, bestResult)
    else some (workingParams, bestResult)

/-- `optimizeCompression(img, format, workingParams)`: hill-climb through
the step sizes 0.05, 0.1, 0.2.  The source function computes `bestResult`
internally but has **no return statement**: a terminating call returns
`undefined`, modelled as `some ()`; `none` means one of the stages'
`while (improved)` loops exceeded the fuel. -/
def optimizeCompression (A : List Char) (maxUrl : ℕ) (O : RenderOracle)
    (img : ImageBitmap) (format : ImageFormat) (fuel : ℕ) (workingParams : TrialParams) :
    Option Unit :=
  let bestResult := tryCompressionLevel A maxUrl O img workingParams
  match optStepLoop A maxUrl O img (1 / 20, 1 / 20) fuel workingParams bestResult with
  | none => none
  | some (wp1, best1) =>
    match optStepLoop A maxUrl O img (1 / 10, 1 / 10) fuel wp1 best1 with
    | none => none
    | some (wp2, best2) =>
      match optStepLoop A maxUrl O img (1 / 5, 1 / 5) fuel wp2 best2 with
      | none => none
      | some _ => some ()

/-- Failures surfaced by `compressImageHeuristic`: the final
"Unable to compress image sufficiently even with aggressive optimization"
throw (the spec's `CompressionExhausted`), and the `TypeError` raised by
reading `.data` off the `undefined` that `optimizeCompression` returns. -/
inductive SearchError where
  | compressionExhausted
  | undefinedResultAccess
deriving DecidableEq

/-- `compressImageHeuristic(file, targetFormat)` — the spec's `findFit`.
Phase 1: try quality 0.95, scale 1.0, returning its `data` on success.
Phase 2: the bounded binary search.  Phase 3 on a phase-2 success:
`optimizeCompression`, whose `undefined` return the caller immediately
dereferences (`optimized.data`).  A phase-2 failure throws the
compression-exhausted error.  `none` propagates phase-3 fuel
exhaustion. -/
def compressImageHeuristic (A : List Char) (maxUrl : ℕ) (O : RenderOracle)
    (img : ImageBitmap) (targetFormat : ImageFormat) (fuel : ℕ) :
    Option (Except SearchError (Option CompressedData)) :=
  let initialResult := tryCompressionLevel A maxUrl O img ⟨targetFormat, 19 / 20, 1⟩
  if initialResult.success then some (.ok initialResult.data)
  else
    match binarySearchCompression A maxUrl O img targetFormat initialResult.encodedLength with
    | some result =>
      match optimizeCompression A maxUrl O img targetFormat fuel result.params with
      | none => none
      | some _ => some (.error .undefinedResultAccess)
    | none => some (.error .compressionExhausted)

/-- `detectOptimalFormat(file)`: render once per supported format (minus
SVG and GIF) at quality 0.95 through its own oracle view (that call site
passes no dimensions), keep the format with the smallest reported size
(`size < smallestSize`, starting from `Infinity`), and fall back to the
input file's own type when no candidate produced a size
(`bestFormat || file.type`).  The loop body is split out as
`detectStep`: one candidate format's trial, with the `catch` on a failed
render keeping the accumulator unchanged. -/
def detectStep (O : ImageFormat → ℚ → Option ℕ)
    (acc : Option ImageFormat × Option ℕ) (format : ImageFormat) :
    Option ImageFormat × Option ℕ :=
  match O format (19 / 20) with
  | none => acc
  | some size => if infLt (some size) acc.2 then (some format, some size) else acc

/-- `detectOptimalFormat(file)` proper: fold `detectStep` over the
filtered candidate list and apply the `bestFormat || file.type`
fallback. -/
def detectOptimalFormat (O : ImageFormat → ℚ → Option ℕ)
    (supportedFormats : List ImageFormat) (fileType : ImageFormat) : ImageFormat :=
  let formats := supportedFormats.filter fun f => f != .svg && f != .gif
  let best := formats.foldl (detectStep O) ((none : Option ImageFormat), (none : Option ℕ))
  best.1.getD fileType

/-! ### Search lemmas and theorems -/

/-- Interval containment between two search states: `inner`'s quality and
scale ranges sit inside `outer`'s, and are themselves well-formed. -/
def boundsNested (inner outer : BSState) : Prop :=
  outer.minQuality ≤ inner.minQuality ∧ inner.maxQuality ≤ outer.maxQuality
  ∧ inner.minQuality ≤ inner.maxQuality
  ∧ outer.minScale ≤ inner.minScale ∧ inner.maxScale ≤ outer.maxScale
  ∧ inner.minScale ≤ inner.maxScale

theorem boundsNested_rfl (st : BSState) (hq : st.minQuality ≤ st.maxQuality)
    (hs : st.minScale ≤ st.maxScale) : boundsNested st st :=
  ⟨le_rfl, le_rfl, hq, le_rfl, le_rfl, hs⟩

theorem boundsNested_trans {a b c : BSState} (h1 : boundsNested a b)
    (h2 : boundsNested b c) : boundsNested a c :=
  ⟨le_trans h2.1 h1.1, le_trans h1.2.1 h2.2.1, h1.2.2.1,
    le_trans h2.2.2.2.1 h1.2.2.2.1, le_trans h1.2.2.2.2.1 h2.2.2.2.2.1, h1.2.2.2.2.2⟩

/-- C8.  Across the rounds of the phase-2 loop, the bound intervals are
nested: starting from any well-formed state, each round either raises the
lower bounds to the evaluated midpoint or lowers the upper bounds to it,
so after any number of rounds the intervals have only tightened and stay
inside the starting intervals. -/
theorem c8_search_bounds_nested (A : List Char) (maxUrl : ℕ) (O : RenderOracle)
    (img : ImageBitmap) (format : ImageFormat) (fuel : ℕ) (st : BSState)
    (hq : st.minQuality ≤ st.maxQuality) (hs : st.minScale ≤ st.maxScale) :
    boundsNested (bsLoop A maxUrl O img format fuel st) st := by
  induction fuel generalizing st with
  | zero => exact boundsNested_rfl st hq hs
  | succ f ih =>
    simp only [bsLoop]
    by_cases hit : st.iterations < 8
    · rw [if_pos hit]
      have hq1 : st.minQuality ≤ (st.minQuality + st.maxQuality) / 2 := by linarith
      have hq2 : (st.minQuality + st.maxQuality) / 2 ≤ st.maxQuality := by linarith
      have hs1 : st.minScale ≤ (st.minScale + st.maxScale) / 2 := by linarith
      have hs2 : (st.minScale + st.maxScale) / 2 ≤ st.maxScale := by linarith
      split
      · -- the trial succeeded: lower bounds move up to the midpoints
        split
        · exact ⟨hq1, le_rfl, hq2, hs1, le_rfl, hs2⟩
        · exact boundsNested_trans (ih _ hq2 hs2) ⟨hq1, le_rfl, hq2, hs1, le_rfl, hs2⟩
      · -- the trial failed: upper bounds move down to the midpoints
        split
        · exact ⟨le_rfl, hq2, hq1, le_rfl, hs2, hs1⟩
        · exact boundsNested_trans (ih _ hq1 hs1) ⟨le_rfl, hq2, hq1, le_rfl, hs2, hs1⟩
    · rw [if_neg hit]
      exact boundsNested_rfl st hq hs

/-- A render oracle that rejects every parameter combination. -/
def rejectOracle : RenderOracle := fun _ => none

/-- The two-symbol alphabet the concrete search scenarios encode with. -/
def alphabet01 : List Char := ['0', '1']

/-- A 1-by-1 image for the concrete witnesses. -/
def img11 : ImageBitmap := ⟨1, 1⟩

/-- C8, witness: the nesting statement at the concrete initial state
quality ∈ [0.1, 0.95], scale ∈ [0.1, 1.0]. -/
theorem c8_search_bounds_nested_witness :
    ((1 : ℚ) / 10 ≤ 19 / 20 ∧ (1 : ℚ) / 10 ≤ 1)
    ∧ boundsNested
        (bsLoop alphabet01 0 rejectOracle img11 .png 9 ⟨1 / 10, 19 / 20, 1 / 10, 1, none, 0⟩)
        ⟨1 / 10, 19 / 20, 1 / 10, 1, none, 0⟩ :=
  ⟨⟨by norm_num, by norm_num⟩,
    c8_search_bounds_nested alphabet01 0 rejectOracle img11 .png 9
      ⟨1 / 10, 19 / 20, 1 / 10, 1, none, 0⟩ (by norm_num) (by norm_num)⟩

theorem bsLoop_bestResult_none (A : List Char) (maxUrl : ℕ) (O : RenderOracle)
    (img : ImageBitmap) (format : ImageFormat)
    (h : ∀ p, (tryCompressionLevel A maxUrl O img p).success = false) :
    ∀ (fuel : ℕ) (st : BSState), st.bestResult = none →
      (bsLoop A maxUrl O img format fuel st).bestResult = none := by
  intro fuel
  induction fuel with
  | zero => intro st hb; simpa [bsLoop] using hb
  | succ f ih =>
    intro st hb
    rw [bsLoop]
    by_cases hit : st.iterations < 8
    · rw [if_pos hit]
      simp only [h, Bool.false_eq_true, if_false]
      split
      · exact hb
      · exact ih _ hb
    · rw [if_neg hit]
      exact hb

theorem bsLoop_iterations_le (A : List Char) (maxUrl : ℕ) (O : RenderOracle)
    (img : ImageBitmap) (format : ImageFormat) :
    ∀ (fuel : ℕ) (st : BSState), st.iterations ≤ 8 →
      (bsLoop A maxUrl O img format fuel st).iterations ≤ 8 := by
  intro fuel
  induction fuel with
  | zero => intro st hi; simpa [bsLoop] using hi
  | succ f ih =>
    intro st hi
    simp only [bsLoop]
    by_cases hit : st.iterations < 8
    · rw [if_pos hit]
      split
      · split
        · exact hi
        · exact ih _ (Nat.succ_le_of_lt hit)
      · split
        · exact hi
        · exact ih _ (Nat.succ_le_of_lt hit)
    · rw [if_neg hit]
      exact hi

/-- C5.  When no rendered-and-encoded trial ever fits the budget —
including when the oracle rejects every trial — the heuristic fails with
the compression-exhausted error for every fuel (the phase-2 loop leaves
`bestResult` empty, and phase 3 never runs); the loop's iteration counter
never passes 8; and an individual oracle rejection is absorbed as an
unsuccessful trial record (`Infinity` length, no data) at that parameter
point rather than propagated. -/
theorem c5_exhaustion_reported (A : List Char) (maxUrl : ℕ) (O : RenderOracle)
    (img : ImageBitmap) (format : ImageFormat)
    (h : ∀ p, (tryCompressionLevel A maxUrl O img p).success = false) :
    (∀ fuel, compressImageHeuristic A maxUrl O img format fuel
        = some (.error .compressionExhausted))
    ∧ (∀ st : BSState, st.iterations ≤ 8 →
        (bsLoop A maxUrl O img format 9 st).iterations ≤ 8)
    ∧ (∀ p : TrialParams,
        O ⟨p.format, p.quality, jsRound (img.width * p.scale),
            jsRound (img.height * p.scale)⟩ = none →
        tryCompressionLevel A maxUrl O img p = ⟨false, none, none, p⟩) := by
  refine ⟨?_, fun st => bsLoop_iterations_le A maxUrl O img format 9 st, ?_⟩
  · intro fuel
    have hb : binarySearchCompression A maxUrl O img format
        (tryCompressionLevel A maxUrl O img ⟨format, 19 / 20, 1⟩).encodedLength = none := by
      rw [binarySearchCompression]
      exact bsLoop_bestResult_none A maxUrl O img format h 9 _ rfl
    simp only [compressImageHeuristic]
    rw [if_neg (by simp [h]), hb]
  · intro p hp
    simp [tryCompressionLevel, hp]

/-- C5, witness: the always-rejecting oracle with a zero budget. -/
theorem c5_exhaustion_reported_witness :
    (∀ p, (tryCompressionLevel alphabet01 0 rejectOracle img11 p).success = false)
    ∧ compressImageHeuristic alphabet01 0 rejectOracle img11 .png 1
        = some (.error .compressionExhausted) :=
  ⟨fun _ => rfl,
    (c5_exhaustion_reported alphabet01 0 rejectOracle img11 .png fun _ => rfl).1 1⟩

/-- C10.  `detectOptimalFormat` always returns a format: when the trial
render fails for every candidate format, the fold leaves the accumulator
untouched and the function falls back to the input file's own type. -/
theorem c10_detect_format_fallback (O : ImageFormat → ℚ → Option ℕ)
    (supportedFormats : List ImageFormat) (fileType : ImageFormat)
    (h : ∀ f ∈ supportedFormats, O f (19 / 20) = none) :
    detectOptimalFormat O supportedFormats fileType = fileType := by
  rw [detectOptimalFormat]
  have key : ∀ (l : List ImageFormat) (acc : Option ImageFormat × Option ℕ),
      (∀ f ∈ l, O f (19 / 20) = none) → l.foldl (detectStep O) acc = acc := by
    intro l
    induction l with
    | nil => intro acc _; rfl
    | cons a t ih =>
      intro acc hl
      rw [List.foldl_cons, show detectStep O acc a = acc from by
        simp [detectStep, hl a (List.mem_cons_self a t)]]
      exact ih _ fun f hf => hl f (List.mem_cons_of_mem a hf)
  rw [key _ _ fun f hf => h f (List.mem_of_mem_filter hf)]
  rfl

/-- An optimal-format probing oracle for which every render fails. -/
def probeOracleNone : ImageFormat → ℚ → Option ℕ := fun _ _ => none

/-- C10, witness: all three candidate renders fail, so the input type
webp comes back. -/
theorem c10_detect_format_fallback_witness :
    (∀ f ∈ ([.png, .jpeg, .gif] : List ImageFormat), probeOracleNone f (19 / 20) = none)
    ∧ detectOptimalFormat probeOracleNone [.png, .jpeg, .gif] .webp = .webp :=
  ⟨fun _ _ => rfl,
    c10_detect_format_fallback probeOracleNone [.png, .jpeg, .gif] .webp fun _ _ => rfl⟩

/-! ### Concrete search scenarios for C2 and C3 -/

/-- An 800-by-800 image for the concrete search scenarios. -/
def img800 : ImageBitmap := ⟨800, 800⟩

/-- Deterministic oracle for C2: the render is a tiny blob (feasible under
budget 5) exactly when quality ≤ 0.6 and the rendered width ≤ 464;
otherwise a blob whose encoding exceeds the budget. -/
def oracleC2 : RenderOracle := fun p =>
  if p.quality ≤ 3 / 5 ∧ p.width ≤ 464 then some ([], 0) else some ([1], 1)

/-- Deterministic oracle for C3: feasible exactly when the rendered width
is at most 464, at any quality. -/
def oracleC3 : RenderOracle := fun p =>
  if p.width ≤ 464 then some ([], 0) else some ([1], 1)

theorem encodeBits01_nil : encodeBits alphabet01 [] = ['0'] := by decide

theorem encodeBits01_one :
    encodeBits alphabet01 [1] = ['1', '0', '0', '0', '0', '0', '0', '0', '1'] := by decide

/-- Comparison through `Math.round` without computing the floor. -/
theorem jsRound_le_iff (x : ℚ) (z : ℤ) : jsRound x ≤ z ↔ x + 1 / 2 < (z : ℚ) + 1 := by
  rw [jsRound, ← Int.lt_add_one_iff, Int.floor_lt]
  push_cast
  rfl

/-- A trial against `oracleC3` whose rendered width fits: a successful
result of encoded length 1. -/
theorem tryC3_pos (fmt : ImageFormat) (q s : ℚ) (h : (800 : ℚ) * s + 1 / 2 < 465) :
    tryCompressionLevel alphabet01 5 oracleC3 img800 ⟨fmt, q, s⟩
      = ⟨true, some 1, some ⟨['0'], fmt, 0⟩, ⟨fmt, q, s⟩⟩ := by
  have hw : jsRound ((img800.width : ℚ) * s) ≤ (464 : ℤ) := by
    rw [jsRound_le_iff]
    have h800 : ((img800.width : ℕ) : ℚ) = 800 := by norm_num [img800]
    rw [h800]
    push_cast
    linarith
  simp [tryCompressionLevel, oracleC3, hw, encodeBits01_nil]

/-- A trial against `oracleC3` whose rendered width exceeds 464: an
unsuccessful result of encoded length 9 over budget 5. -/
theorem tryC3_neg (fmt : ImageFormat) (q s : ℚ) (h : 465 ≤ (800 : ℚ) * s + 1 / 2) :
    tryCompressionLevel alphabet01 5 oracleC3 img800 ⟨fmt, q, s⟩
      = ⟨false, some 9, none, ⟨fmt, q, s⟩⟩ := by
  have hw : ¬ jsRound ((img800.width : ℚ) * s) ≤ (464 : ℤ) := by
    rw [jsRound_le_iff]
    have h800 : ((img800.width : ℕ) : ℚ) = 800 := by norm_num [img800]
    rw [h800]
    push_cast
    linarith
  simp [tryCompressionLevel, oracleC3, hw, encodeBits01_one]

/-- A feasible trial against `oracleC2`. -/
theorem tryC2_pos (fmt : ImageFormat) (q s : ℚ) (hq : q ≤ 3 / 5)
    (h : (800 : ℚ) * s + 1 / 2 < 465) :
    tryCompressionLevel alphabet01 5 oracleC2 img800 ⟨fmt, q, s⟩
      = ⟨true, some 1, some ⟨['0'], fmt, 0⟩, ⟨fmt, q, s⟩⟩ := by
  have hw : jsRound ((img800.width : ℚ) * s) ≤ (464 : ℤ) := by
    rw [jsRound_le_iff]
    have h800 : ((img800.width : ℕ) : ℚ) = 800 := by norm_num [img800]
    rw [h800]
    push_cast
    linarith
  simp [tryCompressionLevel, oracleC2, hw, hq, encodeBits01_nil]

/-- An infeasible trial against `oracleC2`: quality too high. -/
theorem tryC2_negQ (fmt : ImageFormat) (q s : ℚ) (hq : ¬ q ≤ 3 / 5) :
    tryCompressionLevel alphabet01 5 oracleC2 img800 ⟨fmt, q, s⟩
      = ⟨false, some 9, none, ⟨fmt, q, s⟩⟩ := by
  simp [tryCompressionLevel, oracleC2, hq, encodeBits01_one]

/-- An infeasible trial against `oracleC2`: rendered width too large. -/
theorem tryC2_negW (fmt : ImageFormat) (q s : ℚ) (h : 465 ≤ (800 : ℚ) * s + 1 / 2) :
    tryCompressionLevel alphabet01 5 oracleC2 img800 ⟨fmt, q, s⟩
      = ⟨false, some 9, none, ⟨fmt, q, s⟩⟩ := by
  have hw : ¬ jsRound ((img800.width : ℚ) * s) ≤ (464 : ℤ) := by
    rw [jsRound_le_iff]
    have h800 : ((img800.width : ℕ) : ℚ) = 800 := by norm_num [img800]
    rw [h800]
    push_cast
    linarith
  simp [tryCompressionLevel, oracleC2, hw, encodeBits01_one]

/-- One unfolding of the phase-2 loop, with the midpoint trial and the
updated state handed in, so concrete runs can be stepped round by round
without unfolding the opaque trial. -/
theorem bsLoop_round (A : List Char) (maxUrl : ℕ) (O : RenderOracle) (img : ImageBitmap)
    (fmt : ImageFormat) (f : ℕ) (st : BSState) (r : TrialResult)
    (hit : st.iterations < 8)
    (hr : tryCompressionLevel A maxUrl O img
        ⟨fmt, (st.minQuality + st.maxQuality) / 2, (st.minScale + st.maxScale) / 2⟩ = r)
    (st' : BSState)
    (hst' : st' = if r.success
        then ⟨(st.minQuality + st.maxQuality) / 2, st.maxQuality,
              (st.minScale + st.maxScale) / 2, st.maxScale, some r, st.iterations⟩
        else ⟨st.minQuality, (st.minQuality + st.maxQuality) / 2,
              st.minScale, (st.minScale + st.maxScale) / 2, st.bestResult, st.iterations⟩) :
    bsLoop A maxUrl O img fmt (f + 1) st
      = if |st'.maxQuality - st'.minQuality| < 1 / 20 ∧ |st'.maxScale - st'.minScale| < 1 / 20
        then st'
        else bsLoop A maxUrl O img fmt f { st' with iterations := st'.iterations + 1 } := by
  subst hst'
  simp only [bsLoop]
  rw [if_pos hit, hr]

/-- The successful trial record at a feasible concrete point. -/
def trialPoint (fmt : ImageFormat) (q s : ℚ) : TrialResult :=
  ⟨true, some 1, some ⟨['0'], fmt, 0⟩, ⟨fmt, q, s⟩⟩

/-- Phase 2 of the search against `oracleC3` at initial length 9 and
budget 5: five rounds (midpoints 0.525/0.55, 0.7375/0.775, 0.63125/0.6625,
0.578125/0.60625, 0.5515625/0.578125), the last feasible and narrow enough
to break early, leaving best point quality = 353/640, scale = 37/64. -/
theorem binarySearchC3_eval (fmt : ImageFormat) :
    binarySearchCompression alphabet01 5 oracleC3 img800 fmt (some 9)
      = some (trialPoint fmt (353 / 640) (37 / 64)) := by
  have s0 := bsLoop_round alphabet01 5 oracleC3 img800 fmt 8
    ⟨1 / 10, 19 / 20, 1 / 10, 1, none, 0⟩ _ (by norm_num)
    (tryC3_pos fmt ((1 / 10 + 19 / 20) / 2) ((1 / 10 + 1) / 2) (by norm_num))
    ⟨21 / 40, 19 / 20, 11 / 20, 1, some (trialPoint fmt (21 / 40) (11 / 20)), 0⟩
    (by norm_num [trialPoint])
  rw [if_neg (by norm_num [abs_of_nonneg])] at s0
  have s1 := bsLoop_round alphabet01 5 oracleC3 img800 fmt 7
    ⟨21 / 40, 19 / 20, 11 / 20, 1, some (trialPoint fmt (21 / 40) (11 / 20)), 1⟩ _ (by norm_num)
    (tryC3_neg fmt ((21 / 40 + 19 / 20) / 2) ((11 / 20 + 1) / 2) (by norm_num))
    ⟨21 / 40, 59 / 80, 11 / 20, 31 / 40, some (trialPoint fmt (21 / 40) (11 / 20)), 1⟩
    (by norm_num)
  rw [if_neg (by norm_num [abs_of_nonneg])] at s1
  have s2 := bsLoop_round alphabet01 5 oracleC3 img800 fmt 6
    ⟨21 / 40, 59 / 80, 11 / 20, 31 / 40, some (trialPoint fmt (21 / 40) (11 / 20)), 2⟩ _
    (by norm_num)
    (tryC3_neg fmt ((21 / 40 + 59 / 80) / 2) ((11 / 20 + 31 / 40) / 2) (by norm_num))
    ⟨21 / 40, 101 / 160, 11 / 20, 53 / 80, some (trialPoint fmt (21 / 40) (11 / 20)), 2⟩
    (by norm_num)
  rw [if_neg (by norm_num [abs_of_nonneg])] at s2
  have s3 := bsLoop_round alphabet01 5 oracleC3 img800 fmt 5
    ⟨21 / 40, 101 / 160, 11 / 20, 53 / 80, some (trialPoint fmt (21 / 40) (11 / 20)), 3⟩ _
    (by norm_num)
    (tryC3_neg fmt ((21 / 40 + 101 / 160) / 2) ((11 / 20 + 53 / 80) / 2) (by norm_num))
    ⟨21 / 40, 37 / 64, 11 / 20, 97 / 160, some (trialPoint fmt (21 / 40) (11 / 20)), 3⟩
    (by norm_num)
  rw [if_neg (by norm_num [abs_of_nonneg])] at s3
  have s4 := bsLoop_round alphabet01 5 oracleC3 img800 fmt 4
    ⟨21 / 40, 37 / 64, 11 / 20, 97 / 160, some (trialPoint fmt (21 / 40) (11 / 20)), 4⟩ _
    (by norm_num)
    (tryC3_pos fmt ((21 / 40 + 37 / 64) / 2) ((11 / 20 + 97 / 160) / 2) (by norm_num))
    ⟨353 / 640, 37 / 64, 37 / 64, 97 / 160, some (trialPoint fmt (353 / 640) (37 / 64)), 4⟩
    (by norm_num [trialPoint])
  rw [if_pos (by norm_num [abs_of_nonneg])] at s4
  rw [binarySearchCompression]
  norm_num [oversizeGT]
  rw [s0, s1, s2, s3, s4]

/-- Phase 2 of the search against `oracleC2`: the identical five-round
trace (`oracleC2` agrees with `oracleC3` at every evaluated midpoint). -/
theorem binarySearchC2_eval (fmt : ImageFormat) :
    binarySearchCompression alphabet01 5 oracleC2 img800 fmt (some 9)
      = some (trialPoint fmt (353 / 640) (37 / 64)) := by
  have s0 := bsLoop_round alphabet01 5 oracleC2 img800 fmt 8
    ⟨1 / 10, 19 / 20, 1 / 10, 1, none, 0⟩ _ (by norm_num)
    (tryC2_pos fmt ((1 / 10 + 19 / 20) / 2) ((1 / 10 + 1) / 2) (by norm_num) (by norm_num))
    ⟨21 / 40, 19 / 20, 11 / 20, 1, some (trialPoint fmt (21 / 40) (11 / 20)), 0⟩
    (by norm_num [trialPoint])
  rw [if_neg (by norm_num [abs_of_nonneg])] at s0
  have s1 := bsLoop_round alphabet01 5 oracleC2 img800 fmt 7
    ⟨21 / 40, 19 / 20, 11 / 20, 1, some (trialPoint fmt (21 / 40) (11 / 20)), 1⟩ _ (by norm_num)
    (tryC2_negQ fmt ((21 / 40 + 19 / 20) / 2) ((11 / 20 + 1) / 2) (by norm_num))
    ⟨21 / 40, 59 / 80, 11 / 20, 31 / 40, some (trialPoint fmt (21 / 40) (11 / 20)), 1⟩
    (by norm_num)
  rw [if_neg (by norm_num [abs_of_nonneg])] at s1
  have s2 := bsLoop_round alphabet01 5 oracleC2 img800 fmt 6
    ⟨21 / 40, 59 / 80, 11 / 20, 31 / 40, some (trialPoint fmt (21 / 40) (11 / 20)), 2⟩ _
    (by norm_num)
    (tryC2_negQ fmt ((21 / 40 + 59 / 80) / 2) ((11 / 20 + 31 / 40) / 2) (by norm_num))
    ⟨21 / 40, 101 / 160, 11 / 20, 53 / 80, some (trialPoint fmt (21 / 40) (11 / 20)), 2⟩
    (by norm_num)
  rw [if_neg (by norm_num [abs_of_nonneg])] at s2
  have s3 := bsLoop_round alphabet01 5 oracleC2 img800 fmt 5
    ⟨21 / 40, 101 / 160, 11 / 20, 53 / 80, some (trialPoint fmt (21 / 40) (11 / 20)), 3⟩ _
    (by norm_num)
    (tryC2_negW fmt ((21 / 40 + 101 / 160) / 2) ((11 / 20 + 53 / 80) / 2) (by norm_num))
    ⟨21 / 40, 37 / 64, 11 / 20, 97 / 160, some (trialPoint fmt (21 / 40) (11 / 20)), 3⟩
    (by norm_num)
  rw [if_neg (by norm_num [abs_of_nonneg])] at s3
  have s4 := bsLoop_round alphabet01 5 oracleC2 img800 fmt 4
    ⟨21 / 40, 37 / 64, 11 / 20, 97 / 160, some (trialPoint fmt (21 / 40) (11 / 20)), 4⟩ _
    (by norm_num)
    (tryC2_pos fmt ((21 / 40 + 37 / 64) / 2) ((11 / 20 + 97 / 160) / 2) (by norm_num)
      (by norm_num))
    ⟨353 / 640, 37 / 64, 37 / 64, 97 / 160, some (trialPoint fmt (353 / 640) (37 / 64)), 4⟩
    (by norm_num [trialPoint])
  rw [if_pos (by norm_num [abs_of_nonneg])] at s4
  rw [binarySearchCompression]
  norm_num [oversizeGT]
  rw [s0, s1, s2, s3, s4]

/-- One iteration of a phase-3 stage in which neither the quality-only nor
the scale-only increase still fits: the loop exits at once, handing back
the unchanged working point and best result. -/
theorem optStepLoop_exit (A : List Char) (maxUrl : ℕ) (O : RenderOracle) (img : ImageBitmap)
    (step : ℚ × ℚ) (f : ℕ) (wp : TrialParams) (b : TrialResult) (qr sr : TrialResult)
    (hq : tryCompressionLevel A maxUrl O img
        ⟨wp.format, min (19 / 20) (wp.quality + step.1), wp.scale⟩ = qr)
    (hs : tryCompressionLevel A maxUrl O img
        ⟨wp.format, wp.quality, min 1 (wp.scale + step.2)⟩ = sr)
    (hqf : qr.success = false) (hsf : sr.success = false) :
    optStepLoop A maxUrl O img step (f + 1) wp b = some (wp, b) := by
  simp only [optStepLoop, hq, hs, hqf, hsf, Bool.or_self, Bool.false_eq_true, if_false]

/-- One iteration of a phase-3 stage in which the quality-only increase
still fits and has the strictly smaller encoded length: the loop adopts it
and repeats. -/
theorem optStepLoop_improve (A : List Char) (maxUrl : ℕ) (O : RenderOracle) (img : ImageBitmap)
    (step : ℚ × ℚ) (f : ℕ) (wp : TrialParams) (b : TrialResult) (qr sr : TrialResult)
    (hq : tryCompressionLevel A maxUrl O img
        ⟨wp.format, min (19 / 20) (wp.quality + step.1), wp.scale⟩ = qr)
    (hs : tryCompressionLevel A maxUrl O img
        ⟨wp.format, wp.quality, min 1 (wp.scale + step.2)⟩ = sr)
    (hqs : qr.success = true) (hlt : infLt qr.encodedLength sr.encodedLength = true) :
    optStepLoop A maxUrl O img step (f + 1) wp b
      = optStepLoop A maxUrl O img step f qr.params qr := by
  simp only [optStepLoop, hq, hs, hqs, hlt, Bool.true_or, if_true]

/-- Against `oracleC3`, the first phase-3 stage never stops improving from
any working point at scale 37/64: the quality-only trial keeps that scale,
stays feasible, and beats the infeasible scale-only trial, so the loop
re-adopts a point with the same scale forever — `none` at every fuel. -/
theorem optC3_step_diverges :
    ∀ (f : ℕ) (wp : TrialParams) (b : TrialResult), wp.scale = 37 / 64 →
      optStepLoop alphabet01 5 oracleC3 img800 (1 / 20, 1 / 20) f wp b = none := by
  intro f
  induction f with
  | zero => intro wp b _; rfl
  | succ g ih =>
    intro wp b hsc
    have hq := tryC3_pos wp.format (min (19 / 20) (wp.quality + (1 / 20 : ℚ))) wp.scale
      (by rw [hsc]; norm_num)
    have hs := tryC3_neg wp.format wp.quality (min 1 (wp.scale + (1 / 20 : ℚ)))
      (by rw [hsc]; norm_num [min_def])
    rw [optStepLoop_improve alphabet01 5 oracleC3 img800 (1 / 20, 1 / 20) g wp b _ _ hq hs
      rfl rfl]
    exact ih _ _ hsc

/-- C3.  The code violates the termination claim: with the deterministic
oracle `oracleC3` (feasible exactly below rendered width 465), an
800-by-800 image and budget 5, phase 2 hands phase 3 the feasible point
(quality 353/640, scale 37/64), and the phase-3 hill-climb then loops
forever — the quality-only increase, capped at 0.95, keeps the feasible
scale and always wins, so `improved` never goes false.  Formally the model
returns `none` at every fuel bound. -/
theorem c3_phase3_loops_forever :
    ∀ fuel : ℕ, compressImageHeuristic alphabet01 5 oracleC3 img800 .jpeg fuel = none := by
  intro fuel
  have h1 := tryC3_neg .jpeg (19 / 20) 1 (by norm_num)
  simp only [compressImageHeuristic, h1]
  rw [if_neg (by simp)]
  rw [binarySearchC3_eval .jpeg]
  simp only [trialPoint, optimizeCompression]
  rw [optC3_step_diverges fuel _ _ rfl]

/-- Against `oracleC2`, a phase-3 stage starting from the phase-2 best
point (quality 353/640, scale 37/64) exits immediately: the quality-only
increase leaves quality above 0.6 and the scale-only increase pushes the
rendered width past 464, so neither fits. -/
theorem optC2_stage_exits (step : ℚ × ℚ) (f : ℕ) (b : TrialResult)
    (hq : ¬ min (19 / 20) (353 / 640 + step.1) ≤ 3 / 5)
    (hs : 465 ≤ (800 : ℚ) * min 1 (37 / 64 + step.2) + 1 / 2) :
    optStepLoop alphabet01 5 oracleC2 img800 step (f + 1) ⟨.jpeg, 353 / 640, 37 / 64⟩ b
      = some (⟨.jpeg, 353 / 640, 37 / 64⟩, b) :=
  optStepLoop_exit alphabet01 5 oracleC2 img800 step f ⟨.jpeg, 353 / 640, 37 / 64⟩ b _ _
    (tryC2_negQ .jpeg (min (19 / 20) (353 / 640 + step.1)) (37 / 64) hq)
    (tryC2_negW .jpeg (353 / 640) (min 1 (37 / 64 + step.2)) hs)
    rfl rfl

/-- C2.  The code violates the claim that a phase-2 feasible point is
returned to the caller: with `oracleC2` (feasible exactly below quality
0.6 and rendered width 465), phase 2 finds the feasible point (quality
353/640, scale 37/64), phase 3 terminates immediately at every step size —
and `optimizeCompression`, having no return statement, yields `undefined`,
so `compressImageHeuristic` crashes reading `optimized.data` instead of
returning the feasible result.  `fuel + 1` covers every terminating run;
each stage exits on its first iteration. -/
theorem c2_feasible_point_never_returned :
    ∀ fuel : ℕ, compressImageHeuristic alphabet01 5 oracleC2 img800 .jpeg (fuel + 1)
      = some (.error .undefinedResultAccess) := by
  intro fuel
  have h1 := tryC2_negQ .jpeg (19 / 20) 1 (by norm_num)
  simp only [compressImageHeuristic, h1]
  rw [if_neg (by simp)]
  rw [binarySearchC2_eval .jpeg]
  simp only [trialPoint, optimizeCompression]
  have k1 : ∀ b, optStepLoop alphabet01 5 oracleC2 img800 (1 / 20, 1 / 20) (fuel + 1)
      ⟨.jpeg, 353 / 640, 37 / 64⟩ b = some (⟨.jpeg, 353 / 640, 37 / 64⟩, b) := fun b =>
    optC2_stage_exits (1 / 20, 1 / 20) fuel b (by norm_num [min_def]) (by norm_num [min_def])
  have k2 : ∀ b, optStepLoop alphabet01 5 oracleC2 img800 (1 / 10, 1 / 10) (fuel + 1)
      ⟨.jpeg, 353 / 640, 37 / 64⟩ b = some (⟨.jpeg, 353 / 640, 37 / 64⟩, b) := fun b =>
    optC2_stage_exits (1 / 10, 1 / 10) fuel b (by norm_num [min_def]) (by norm_num [min_def])
  have k3 : ∀ b, optStepLoop alphabet01 5 oracleC2 img800 (1 / 5, 1 / 5) (fuel + 1)
      ⟨.jpeg, 353 / 640, 37 / 64⟩ b = some (⟨.jpeg, 353 / 640, 37 / 64⟩, b) := fun b =>
    optC2_stage_exits (1 / 5, 1 / 5) fuel b (by norm_num [min_def]) (by norm_num [min_def])
  simp only [k1, k2, k3]
